import Mathlib

/-!
# World of Bits — verification of the grid/state core

Shallow embedding of the current `src/main.ts` revision of the game
(the file whose latest revision carries the localStorage persistence,
the movement-controller facade and `INTERACTION_RANGE = 3`).

Modelling decisions, all taken from the source:
* Geographic positions (`number` floats in JS) become `ℚ`; cell indices
  (`Math.floor` results) become `ℤ`.
* The `Map<string, number>` keyed by the string `"i,j"` becomes an
  association list keyed by the pair `(i, j) : ℤ × ℤ` — the encoding
  `i ++ "," ++ j` is injective on integer pairs, so the pair is a faithful
  stand-in for the key string. `Map.set` semantics (overwrite in place,
  else append, preserving insertion order) are reproduced by `mapSet`.
* The hash `luck([i, j, "initialValue"].toString())` lives in `_luck.ts`,
  an external helper; the model abstracts it as a parameter
  `luck : ℤ → ℤ → ℚ` supplied to every state-transition function.
* Side effects (`cellState.set`, `saveGame()`, `render()`,
  `updateStatus()`) are recorded in an `Effect` trace emitted alongside
  the new state, in source order.
-/

namespace WorldOfBits

/-- `TILE_DEGREES = 3e-5` (part_002 line 8). -/
def TILE_DEGREES : ℚ := 3 / 100000

/-- `PIT_SPAWN_PROBABILITY = 0.5` (part_002 line 9). -/
def PIT_SPAWN_PROBABILITY : ℚ := 1 / 2

/-- `INTERACTION_RANGE = 3` (part_002 line 10). -/
def INTERACTION_RANGE : ℕ := 3

/-- `VICTORY_THRESHOLD = 16` (part_002 line 11). -/
def VICTORY_THRESHOLD : ℤ := 16

/-- A grid coordinate, the `interface Cell { i; j }` of the source. -/
abbrev Coord := ℤ × ℤ

/-- The sparse cell store `cellState : Map<string, number>`, as an
insertion-ordered association list keyed by the decoded `"i,j"` key. -/
abbrev Store := List (Coord × ℤ)

/-- `cellState.get(key)` preceded by `cellState.has(key)`: first (unique)
matching entry, or `none`. -/
def storeFind : Store → Coord → Option ℤ
  | [], _ => none
  | (k, v) :: rest, c => if k = c then some v else storeFind rest c

/-- `cellState.set(key, value)`: overwrite the existing entry in place,
else append — exactly JS `Map.set` insertion-order semantics. -/
def mapSet : Store → Coord → ℤ → Store
  | [], c, v => [(c, v)]
  | (k, w) :: rest, c, v =>
      if k = c then (c, v) :: rest else (k, w) :: mapSet rest c v

/-- In-memory game state: `playerPosition`, `inventory : number | null`,
and `cellState` (part_002 lines 19–24, 62). -/
structure GameState where
  playerLat : ℚ
  playerLng : ℚ
  inventory : Option ℤ
  cellState : Store
deriving DecidableEq

/-- Module-initialisation state: `playerPosition = {36.9995, -122.0533}`,
`inventory = null`, `cellState` empty. -/
def initState : GameState :=
  { playerLat := 369995 / 10000
    playerLng := -1220533 / 10000
    inventory := none
    cellState := [] }

/-- `latLngToCell` (part_002 lines 236–241): `Math.floor(lat / TILE_DEGREES)`
for each axis. -/
def latLngToCell (lat lng : ℚ) : Coord :=
  (⌊lat / TILE_DEGREES⌋, ⌊lng / TILE_DEGREES⌋)

/-- The cell the player currently stands in,
`latLngToCell(playerPosition.lat, playerPosition.lng)`. -/
def playerCell (st : GameState) : Coord :=
  latLngToCell st.playerLat st.playerLng

/-- `getCellValue` (part_002 lines 261–272): stored value if the key is
present, else `1` when `luck([i,j,"initialValue"].toString())` is below
`PIT_SPAWN_PROBABILITY`, else `0`. -/
def getCellValue (luck : ℤ → ℤ → ℚ) (cs : Store) (i j : ℤ) : ℤ :=
  match storeFind cs (i, j) with
  | some v => v
  | none => if luck i j < PIT_SPAWN_PROBABILITY then 1 else 0

/-- Observable side effects of the state-transition code, in the order the
source performs them. -/
inductive Effect
  | storeWrite (i j v : ℤ)
  | save
  | render
  | status
deriving DecidableEq

/-- `setCellValue` (part_002 lines 274–279): `cellState.set(key, value)`,
then `saveGame()`, then `render()` — unconditionally. -/
def setCellValue (cs : Store) (i j v : ℤ) : Store × List Effect :=
  (mapSet cs (i, j) v, [Effect.storeWrite i j v, Effect.save, Effect.render])

/-- The `rect.on("click", ...)` handler (part_002 lines 311–342).

The handler closes over `value = getCellValue(i, j)` captured at render
time; since `render()` runs after every mutation and every move, the
captured value equals `getCellValue` at click time, which is how it is
written here. Branch structure and effect order follow the source:
distance gate, then collect / craft on `value > 0`, else deposit. -/
def rectClick (luck : ℤ → ℤ → ℚ) (st : GameState) (i j : ℤ) :
    GameState × List Effect :=
  let p := playerCell st
  if INTERACTION_RANGE < (i - p.1).natAbs ∨ INTERACTION_RANGE < (j - p.2).natAbs then
    (st, [])
  else
    let value := getCellValue luck st.cellState i j
    if 0 < value then
      match st.inventory with
      | none =>
          let r := setCellValue st.cellState i j 0
          ({ st with inventory := some value, cellState := r.1 },
            r.2 ++ [Effect.status])
      | some w =>
          if w = value then
            let r := setCellValue st.cellState i j (value * 2)
            ({ st with inventory := none, cellState := r.1 },
              r.2 ++ [Effect.status])
          else (st, [])
    else
      match st.inventory with
      | some w =>
          let r := setCellValue st.cellState i j w
          ({ st with inventory := none, cellState := r.1 },
            r.2 ++ [Effect.status])
      | none => (st, [])

/-- `movePlayer` (part_002 lines 104–109): add `d * TILE_DEGREES` per axis,
then re-render (`map.setView` is a widget call folded into the render
effect). -/
def movePlayer (st : GameState) (dLat dLng : ℤ) : GameState × List Effect :=
  ({ st with playerLat := st.playerLat + dLat * TILE_DEGREES
             playerLng := st.playerLng + dLng * TILE_DEGREES },
    [Effect.render])

/-- `setPlayerPosition` (part_002 lines 138–143), the geolocation path:
absolute position, then re-render. -/
def setPlayerPosition (st : GameState) (lat lng : ℚ) : GameState × List Effect :=
  ({ st with playerLat := lat, playerLng := lng }, [Effect.render])

/-- The externally triggered state-changing events of the session. -/
inductive Action
  | move (dLat dLng : ℤ)
  | setPos (lat lng : ℚ)
  | click (i j : ℤ)

/-- Dispatch one event to its handler. -/
def stepEff (luck : ℤ → ℤ → ℚ) (st : GameState) : Action → GameState × List Effect
  | Action.move dLat dLng => movePlayer st dLat dLng
  | Action.setPos lat lng => setPlayerPosition st lat lng
  | Action.click i j => rectClick luck st i j

/-- Does an effect write the store? -/
def isStoreWrite : Effect → Bool
  | Effect.storeWrite _ _ _ => true
  | _ => false

/-- Run a sequence of events from a state, returning the final state and
the number of store-mutating interactions performed along the way. -/
def runTrace (luck : ℤ → ℤ → ℚ) (st : GameState) : List Action → GameState × ℕ
  | [] => (st, 0)
  | a :: rest =>
      let r := stepEff luck st a
      let r2 := runTrace luck r.1 rest
      (r2.1, r.2.countP isStoreWrite + r2.2)

/-- Shape of the persisted blob `GameState` (part_002 lines 29–33):
`playerPosition`, `inventory`, and the spread `[...cellState]` entries. -/
structure SavedState where
  lat : ℚ
  lng : ℚ
  inventory : Option ℤ
  cellState : Store
deriving DecidableEq

/-- `saveGame` (part_002 lines 35–42): snapshot position, inventory, and
the cell-state entries in insertion order, `JSON.stringify`, store. -/
def saveGame (st : GameState) : SavedState :=
  { lat := st.playerLat
    lng := st.playerLng
    inventory := st.inventory
    cellState := st.cellState }

/-- What `localStorage.getItem(STORAGE_KEY)` followed by `JSON.parse` and
field extraction can yield.  `JSON.parse` is a browser builtin, external
to the repository: a stored string either parses to a blob of the
`GameState` shape, or `JSON.parse` (on a parse failure) or the subsequent
field accesses (on a shape mismatch, e.g. `state.playerPosition.lat` with
`playerPosition` absent, or iterating a missing `cellState`) throw. -/
inductive LoadBlob
  | absent
  | malformed
  | wellFormed (sv : SavedState)

/-- Field-by-field restore performed by `loadGame` on a well-shaped blob
(part_002 lines 48–54): overwrite position and inventory, `clear()` the
map, re-`set` every saved entry in order. -/
def applySaved (sv : SavedState) : GameState :=
  { playerLat := sv.lat
    playerLng := sv.lng
    inventory := sv.inventory
    cellState := sv.cellState.foldl (fun m kv => mapSet m kv.1 kv.2) [] }

/-- `loadGame` (part_002 lines 44–58).  There is no `try`/`catch` in its
body, so an exception thrown by `JSON.parse` or by the field accesses on a
malformed blob propagates to the caller, modelled as `Except.error`.  An
absent blob returns `false` with the state untouched; a well-shaped blob
fully overwrites the state and returns `true`. -/
def loadGame (blob : LoadBlob) (st : GameState) : Except Unit (GameState × Bool) :=
  match blob with
  | LoadBlob.absent => Except.ok (st, false)
  | LoadBlob.malformed => Except.error ()
  | LoadBlob.wellFormed sv => Except.ok (applySaved sv, true)

/-!
## Movement-controller facade (part_002 lines 131–209)

`buttonMovement` drives `isActive` off `controlPanel.style.display`;
`geoMovement` drives it off `geoWatchId`.  `watchPosition` subscriptions
are tracked explicitly (registered ids sequentially drawn from a counter,
`clearWatch` removing one) so that subscription leaks are observable.
-/

/-- Which controller `currentMovement` points at. -/
inductive Controller
  | button
  | geo
deriving DecidableEq

/-- State of the movement subsystem: the control panel's CSS display
string, `geoWatchId : number | null`, the `currentMovement` reference,
plus the environment's watch-id supply and the set of live
`watchPosition` subscriptions. -/
structure MoveSys where
  panelDisplay : String
  geoWatchId : Option ℕ
  current : Controller
  nextWatchId : ℕ
  activeWatches : List ℕ
deriving DecidableEq

/-- `buttonMovement.start()`: `controlPanel.style.display = "flex"`. -/
def buttonStart (s : MoveSys) : MoveSys := { s with panelDisplay := "flex" }

/-- `buttonMovement.stop()`: `controlPanel.style.display = "none"`. -/
def buttonStop (s : MoveSys) : MoveSys := { s with panelDisplay := "none" }

/-- `buttonMovement.isActive()`: `controlPanel.style.display !== "none"`. -/
def buttonIsActive (s : MoveSys) : Bool := s.panelDisplay != "none"

/-- `geoMovement.start()`: when geolocation is unsupported, alert and
return with `geoWatchId` untouched; otherwise register a fresh
`watchPosition` subscription and record its id. -/
def geoStart (supported : Bool) (s : MoveSys) : MoveSys :=
  if supported then
    { s with geoWatchId := some s.nextWatchId
             activeWatches := s.activeWatches ++ [s.nextWatchId]
             nextWatchId := s.nextWatchId + 1 }
  else s

/-- `geoMovement.stop()`: `clearWatch` and null the id when one is held,
else do nothing. -/
def geoStop (s : MoveSys) : MoveSys :=
  match s.geoWatchId with
  | some id => { s with geoWatchId := none
                        activeWatches := s.activeWatches.erase id }
  | none => s

/-- `geoMovement.isActive()`: `geoWatchId !== null`. -/
def geoIsActive (s : MoveSys) : Bool := s.geoWatchId.isSome

/-- The `geoToggleBtn` click handler (part_002 lines 192–204): stop the
current controller, swap the reference, start the new one.  `supported`
is whether `navigator.geolocation` exists. -/
def toggle (supported : Bool) (s : MoveSys) : MoveSys :=
  if s.current = Controller.geo then
    buttonStart { geoStop s with current := Controller.button }
  else
    geoStart supported { buttonStop s with current := Controller.geo }

/-- Movement subsystem after module initialisation: `currentMovement =
buttonMovement` and `currentMovement.start()` have run (line 188–189),
`geoWatchId = null`, no live subscriptions. -/
def initMoveSys : MoveSys :=
  { panelDisplay := "flex"
    geoWatchId := none
    current := Controller.button
    nextWatchId := 0
    activeWatches := [] }

/-- Exactly one of the two movement sources reports `isActive()`. -/
def exactlyOneActive (s : MoveSys) : Prop :=
  (buttonIsActive s = true ∧ geoIsActive s = false) ∨
  (buttonIsActive s = false ∧ geoIsActive s = true)

instance (s : MoveSys) : Decidable (exactlyOneActive s) := by
  unfold exactlyOneActive
  infer_instance

/-- The live-subscription list a held watch id accounts for. -/
def watchList : Option ℕ → List ℕ
  | none => []
  | some id => [id]

/-- Consistency of the movement subsystem: the subscription list is
exactly what `geoWatchId` accounts for (no leaked or duplicated
subscriptions), held ids are below the supply counter, and the
`currentMovement` reference agrees with which source is active. -/
def goodMove (s : MoveSys) : Prop :=
  s.activeWatches = watchList s.geoWatchId ∧
  (∀ id ∈ s.activeWatches, id < s.nextWatchId) ∧
  ((s.current = Controller.button ∧ s.geoWatchId = none ∧ buttonIsActive s = true) ∨
    (s.current = Controller.geo ∧ s.geoWatchId ≠ none ∧ buttonIsActive s = false))

instance (s : MoveSys) : Decidable (goodMove s) := by
  unfold goodMove
  infer_instance

/-- The observables of the movement subsystem: current controller, the two
`isActive()` readings, and the number of live subscriptions. -/
def movObs (s : MoveSys) : Controller × Bool × Bool × ℕ :=
  (s.current, buttonIsActive s, geoIsActive s, s.activeWatches.length)

/-- A degenerate hash for concrete evaluation: every cell spawns a token
(`luck` result `0`, below the spawn probability). -/
def luckZero : ℤ → ℤ → ℚ := fun _ _ => 0

/-- Concrete state at the grid origin with empty inventory, used to
evaluate the theorems on explicit inputs. -/
def originState : GameState :=
  { playerLat := 0, playerLng := 0, inventory := none, cellState := [] }

/-- Concrete state at the grid origin holding a token of value `1`. -/
def holdingState : GameState :=
  { playerLat := 0, playerLng := 0, inventory := some 1, cellState := [] }

/-- Chebyshev distance between two grid coordinates, the metric of the
click handler's range gate (`distI`/`distJ` with `Math.abs`). -/
def chebyshev (a b : Coord) : ℕ :=
  max (a.1 - b.1).natAbs (a.2 - b.2).natAbs

/-- `2`-power predicate for token values. -/
def pow2 (v : ℤ) : Prop := ∃ n : ℕ, v = 2 ^ n

/-- Value discipline of the state: every stored cell value is `0` or a
power of two, and a held inventory token is a power of two. -/
def goodVals (st : GameState) : Prop :=
  (∀ kv ∈ st.cellState, kv.2 = 0 ∨ pow2 kv.2) ∧
  (∀ w, st.inventory = some w → pow2 w)

/-- Checks that in an effect trace every store write is immediately
followed by a persistence write and then a re-render. -/
def writesFollowedB : List Effect → Bool
  | [] => true
  | Effect.storeWrite _ _ _ :: rest =>
      match rest with
      | Effect.save :: Effect.render :: _ => writesFollowedB rest
      | _ => false
  | _ :: rest => writesFollowedB rest

/-! ## Association-list (JS `Map`) lemmas -/

theorem storeFind_mapSet_self (cs : Store) (k : Coord) (v : ℤ) :
    storeFind (mapSet cs k v) k = some v := by
  induction cs with
  | nil => simp [mapSet, storeFind]
  | cons hd tl ih =>
      obtain ⟨k', w⟩ := hd
      by_cases h : k' = k
      · simp [mapSet, h, storeFind]
      · simp [mapSet, h, storeFind, ih]

theorem mapSet_length_le (cs : Store) (k : Coord) (v : ℤ) :
    (mapSet cs k v).length ≤ cs.length + 1 := by
  induction cs with
  | nil => simp [mapSet]
  | cons hd tl ih =>
      obtain ⟨k', w⟩ := hd
      by_cases h : k' = k
      · simp [mapSet, h]
      · simpa [mapSet, h] using ih

theorem mem_mapSet : ∀ (cs : Store) (k : Coord) (v : ℤ) (kv : Coord × ℤ),
    kv ∈ mapSet cs k v → kv = (k, v) ∨ kv ∈ cs
  | [], _, _, _, h => by simpa [mapSet] using h
  | (k', w) :: tl, k, v, kv, h => by
      by_cases hk : k' = k
      · subst hk
        simp only [mapSet, if_true, eq_self_iff_true, List.mem_cons] at h
        exact h.imp (fun x => x) (fun hx => List.mem_cons_of_mem _ hx)
      · simp only [mapSet, if_neg hk, List.mem_cons] at h
        rcases h with h1 | h1
        · exact Or.inr (by simp [h1])
        · rcases mem_mapSet tl k v kv h1 with h' | h'
          · exact Or.inl h'
          · exact Or.inr (List.mem_cons_of_mem _ h')

theorem storeFind_eq_none_iff (cs : Store) (k : Coord) :
    storeFind cs k = none ↔ k ∉ cs.map Prod.fst := by
  induction cs with
  | nil => simp [storeFind]
  | cons hd tl ih =>
      obtain ⟨k', w⟩ := hd
      by_cases h : k' = k
      · simp [storeFind, h]
      · simp [storeFind, h, ih, Ne.symm h]

theorem mapSet_keys (cs : Store) (k : Coord) (v : ℤ) :
    (mapSet cs k v).map Prod.fst =
      if storeFind cs k = none then cs.map Prod.fst ++ [k]
      else cs.map Prod.fst := by
  induction cs with
  | nil => simp [mapSet, storeFind]
  | cons hd tl ih =>
      obtain ⟨k', w⟩ := hd
      by_cases h : k' = k
      · simp [mapSet, h, storeFind]
      · simp only [mapSet, if_neg h, storeFind, List.map_cons, ih]
        split <;> simp

theorem mapSet_keys_nodup {cs : Store} (hnd : (cs.map Prod.fst).Nodup)
    (k : Coord) (v : ℤ) : ((mapSet cs k v).map Prod.fst).Nodup := by
  rw [mapSet_keys]
  split
  · rename_i h
    rw [storeFind_eq_none_iff] at h
    exact List.Nodup.append hnd (List.nodup_singleton k)
      (fun a ha hak => h (by rw [List.mem_singleton] at hak; exact hak ▸ ha))
  · exact hnd

theorem mapSet_of_find_none {cs : Store} {k : Coord}
    (h : storeFind cs k = none) (v : ℤ) :
    mapSet cs k v = cs ++ [(k, v)] := by
  induction cs with
  | nil => simp [mapSet]
  | cons hd tl ih =>
      obtain ⟨k', w⟩ := hd
      by_cases hk : k' = k
      · simp [storeFind, hk] at h
      · simp only [storeFind, if_neg hk] at h
        simp [mapSet, hk, ih h]

theorem storeFind_append_of_none {a : Store} {k : Coord}
    (h : storeFind a k = none) (b : Store) :
    storeFind (a ++ b) k = storeFind b k := by
  induction a with
  | nil => simp
  | cons hd tl ih =>
      obtain ⟨k', w⟩ := hd
      by_cases hk : k' = k
      · simp [storeFind, hk] at h
      · simp only [storeFind, if_neg hk] at h
        simpa [storeFind, hk] using ih h

theorem rebuild_foldl (l : Store) :
    ∀ acc : Store, (l.map Prod.fst).Nodup →
      (∀ kv ∈ l, storeFind acc kv.1 = none) →
      l.foldl (fun m kv => mapSet m kv.1 kv.2) acc = acc ++ l := by
  induction l with
  | nil => intro acc _ _; simp
  | cons hd tl ih =>
      intro acc hnd hdisj
      obtain ⟨k, v⟩ := hd
      have hnd' : k ∉ tl.map Prod.fst ∧ (tl.map Prod.fst).Nodup := by
        rw [List.map_cons] at hnd
        exact List.nodup_cons.mp hnd
      have hfind : storeFind acc k = none := hdisj (k, v) (by simp)
      have hk_tl : ∀ kv ∈ tl, kv.1 ≠ k := by
        intro kv hkv hEq
        exact hnd'.1 (hEq ▸ List.mem_map_of_mem Prod.fst hkv)
      rw [List.foldl_cons]
      show List.foldl _ (mapSet acc k v) tl = _
      rw [mapSet_of_find_none hfind v, ih (acc ++ [(k, v)]) hnd'.2 ?_]
      · simp
      · intro kv hkv
        rw [storeFind_append_of_none (hdisj kv (List.mem_cons_of_mem _ hkv))]
        simp [storeFind, Ne.symm (hk_tl kv hkv)]

/-! ## Click-handler case analysis -/

theorem chebyshev_gate (i j : ℤ) (p : Coord) :
    (INTERACTION_RANGE < (i - p.1).natAbs ∨ INTERACTION_RANGE < (j - p.2).natAbs) ↔
      INTERACTION_RANGE < chebyshev (i, j) p := by
  simp [chebyshev, lt_max_iff]

theorem rectClick_cases (luck : ℤ → ℤ → ℚ) (st : GameState) (i j : ℤ) :
    rectClick luck st i j = (st, []) ∨
    ∃ v inv,
      rectClick luck st i j =
        ({ st with inventory := inv, cellState := mapSet st.cellState (i, j) v },
          [Effect.storeWrite i j v, Effect.save, Effect.render, Effect.status]) := by
  unfold rectClick
  dsimp only
  split
  · exact Or.inl rfl
  · split
    · cases hinv : st.inventory with
      | none =>
          right
          exact ⟨0, some (getCellValue luck st.cellState i j),
            by simp [hinv, setCellValue]⟩
      | some w =>
          by_cases hw : w = getCellValue luck st.cellState i j
          · right
            exact ⟨getCellValue luck st.cellState i j * 2, none,
              by simp [hinv, hw, setCellValue]⟩
          · left
            simp [hinv, hw]
    · cases hinv : st.inventory with
      | some w => exact Or.inr ⟨w, none, by simp [hinv, setCellValue]⟩
      | none => exact Or.inl (by simp [hinv])

theorem rectClick_branches (luck : ℤ → ℤ → ℚ) (st : GameState) (i j : ℤ) :
    rectClick luck st i j = (st, []) ∨
    (st.inventory = none ∧ 0 < getCellValue luck st.cellState i j ∧
      rectClick luck st i j =
        ({ st with inventory := some (getCellValue luck st.cellState i j), cellState := mapSet st.cellState (i, j) 0 },
          [Effect.storeWrite i j 0, Effect.save, Effect.render, Effect.status])) ∨
    (∃ w, st.inventory = some w ∧ w = getCellValue luck st.cellState i j ∧
      rectClick luck st i j =
        ({ st with inventory := none, cellState := mapSet st.cellState (i, j) (getCellValue luck st.cellState i j * 2) },
          [Effect.storeWrite i j (getCellValue luck st.cellState i j * 2), Effect.save,
            Effect.render, Effect.status])) ∨
    (∃ w, st.inventory = some w ∧
      rectClick luck st i j =
        ({ st with inventory := none, cellState := mapSet st.cellState (i, j) w },
          [Effect.storeWrite i j w, Effect.save, Effect.render, Effect.status])) := by
  unfold rectClick
  dsimp only
  split
  · exact Or.inl rfl
  · split
    · rename_i hpos
      cases hinv : st.inventory with
      | none =>
          refine Or.inr (Or.inl ⟨rfl, hpos, ?_⟩)
          simp [hinv, setCellValue]
      | some w =>
          by_cases hw : w = getCellValue luck st.cellState i j
          · refine Or.inr (Or.inr (Or.inl ⟨w, rfl, hw, ?_⟩))
            simp [hinv, hw, setCellValue]
          · exact Or.inl (by simp [hinv, hw])
    · cases hinv : st.inventory with
      | some w =>
          refine Or.inr (Or.inr (Or.inr ⟨w, rfl, ?_⟩))
          simp [hinv, setCellValue]
      | none => exact Or.inl (by simp [hinv])

/-! ## Evaluation lemmas for the concrete witness states -/

theorem playerCell_origin : playerCell originState = (0, 0) := by
  simp [playerCell, latLngToCell, originState, TILE_DEGREES]

theorem playerCell_holding : playerCell holdingState = (0, 0) := by
  simp [playerCell, latLngToCell, holdingState, TILE_DEGREES]

theorem getCellValue_luckZero_empty (i j : ℤ) :
    getCellValue luckZero [] i j = 1 := by
  simp only [getCellValue, storeFind, luckZero, PIT_SPAWN_PROBABILITY]
  norm_num

/-! ## Claim theorems: interaction engine -/

/-- C4: for every game state and every clicked cell whose Chebyshev
distance from the player's cell exceeds `INTERACTION_RANGE`, the click
leaves the whole state — in particular the Cell Store and the Inventory —
unchanged and performs no side effects, regardless of the inventory and
cell-value configuration. -/
theorem claim_C4_rangeGate (luck : ℤ → ℤ → ℚ) (st : GameState) (i j : ℤ)
    (h : INTERACTION_RANGE < chebyshev (i, j) (playerCell st)) :
    rectClick luck st i j = (st, []) := by
  unfold rectClick
  dsimp only
  rw [if_pos ((chebyshev_gate i j (playerCell st)).mpr h)]

/-- Witness for C4 at a concrete out-of-range input. -/
theorem claim_C4_witness :
    INTERACTION_RANGE < chebyshev (4, 0) (playerCell originState) ∧
    rectClick luckZero originState 4 0 = (originState, []) :=
  ⟨by rw [playerCell_origin]; decide,
    claim_C4_rangeGate luckZero originState 4 0 (by rw [playerCell_origin]; decide)⟩

/-- C1: from any state holding a token of value `w`, clicking an in-range
cell whose current value equals `w > 0` performs Craft: afterwards the
inventory is empty and that cell's value is `2·w`. -/
theorem claim_C1_craft (luck : ℤ → ℤ → ℚ) (st : GameState) (i j w : ℤ)
    (hr : chebyshev (i, j) (playerCell st) ≤ INTERACTION_RANGE)
    (hinv : st.inventory = some w)
    (hval : getCellValue luck st.cellState i j = w)
    (hw : 0 < w) :
    (rectClick luck st i j).1.inventory = none ∧
    getCellValue luck (rectClick luck st i j).1.cellState i j = 2 * w := by
  have hc : ¬ (INTERACTION_RANGE < (i - (playerCell st).1).natAbs ∨
      INTERACTION_RANGE < (j - (playerCell st).2).natAbs) := by
    rw [chebyshev_gate]
    exact not_lt.mpr hr
  unfold rectClick
  dsimp only
  rw [if_neg hc, hval, if_pos hw, hinv]
  simp [setCellValue, getCellValue, storeFind_mapSet_self, mul_comm]

/-- Witness for C1: holding `1` and clicking the origin cell (value `1`,
in range) empties the inventory and doubles the cell to `2`. -/
theorem claim_C1_witness :
    chebyshev (0, 0) (playerCell holdingState) ≤ INTERACTION_RANGE ∧
    holdingState.inventory = some 1 ∧
    getCellValue luckZero holdingState.cellState 0 0 = 1 ∧ (0 : ℤ) < 1 ∧
    (rectClick luckZero holdingState 0 0).1.inventory = none ∧
    getCellValue luckZero (rectClick luckZero holdingState 0 0).1.cellState 0 0 = 2 * 1 :=
  ⟨by rw [playerCell_holding]; decide, rfl, getCellValue_luckZero_empty 0 0, by decide,
    (claim_C1_craft luckZero holdingState 0 0 1 (by rw [playerCell_holding]; decide) rfl
      (getCellValue_luckZero_empty 0 0) (by decide)).1,
    (claim_C1_craft luckZero holdingState 0 0 1 (by rw [playerCell_holding]; decide) rfl
      (getCellValue_luckZero_empty 0 0) (by decide)).2⟩

/-- C9: from any state with empty inventory, clicking an in-range cell
whose current value is `v > 0` performs Collect: afterwards the inventory
holds `v` and that cell's value is `0`. -/
theorem claim_C9_collect (luck : ℤ → ℤ → ℚ) (st : GameState) (i j v : ℤ)
    (hr : chebyshev (i, j) (playerCell st) ≤ INTERACTION_RANGE)
    (hinv : st.inventory = none)
    (hval : getCellValue luck st.cellState i j = v)
    (hv : 0 < v) :
    (rectClick luck st i j).1.inventory = some v ∧
    getCellValue luck (rectClick luck st i j).1.cellState i j = 0 := by
  have hc : ¬ (INTERACTION_RANGE < (i - (playerCell st).1).natAbs ∨
      INTERACTION_RANGE < (j - (playerCell st).2).natAbs) := by
    rw [chebyshev_gate]
    exact not_lt.mpr hr
  unfold rectClick
  dsimp only
  rw [if_neg hc, hval, if_pos hv, hinv]
  simp [setCellValue, getCellValue, storeFind_mapSet_self]

/-- Witness for C9: with empty inventory, clicking the origin cell (value
`1`, in range) moves the token into the inventory and empties the cell. -/
theorem claim_C9_witness :
    chebyshev (0, 0) (playerCell originState) ≤ INTERACTION_RANGE ∧
    originState.inventory = none ∧
    getCellValue luckZero originState.cellState 0 0 = 1 ∧ (0 : ℤ) < 1 ∧
    (rectClick luckZero originState 0 0).1.inventory = some 1 ∧
    getCellValue luckZero (rectClick luckZero originState 0 0).1.cellState 0 0 = 0 :=
  ⟨by rw [playerCell_origin]; decide, rfl, getCellValue_luckZero_empty 0 0, by decide,
    (claim_C9_collect luckZero originState 0 0 1 (by rw [playerCell_origin]; decide) rfl
      (getCellValue_luckZero_empty 0 0) (by decide)).1,
    (claim_C9_collect luckZero originState 0 0 1 (by rw [playerCell_origin]; decide) rfl
      (getCellValue_luckZero_empty 0 0) (by decide)).2⟩

/-- C5: for a coordinate with no Cell Store entry, `getCellValue` returns
the Generator's value: `1` exactly when the seeded hash of the cell is
below `PIT_SPAWN_PROBABILITY`, and `0` otherwise. -/
theorem claim_C5_generator (luck : ℤ → ℤ → ℚ) (cs : Store) (i j : ℤ)
    (h : storeFind cs (i, j) = none) :
    (getCellValue luck cs i j = 1 ↔ luck i j < PIT_SPAWN_PROBABILITY) ∧
    (getCellValue luck cs i j = 0 ↔ ¬ luck i j < PIT_SPAWN_PROBABILITY) := by
  unfold getCellValue
  rw [h]
  dsimp only
  split
  · rename_i hl
    simp [hl]
  · rename_i hl
    simp [hl]

/-- Witness for C5 at the origin cell of an empty store, with a hash that
is below the spawn probability. -/
theorem claim_C5_witness :
    storeFind ([] : Store) (0, 0) = none ∧
    ((getCellValue luckZero [] 0 0 = 1 ↔ luckZero 0 0 < PIT_SPAWN_PROBABILITY) ∧
      (getCellValue luckZero [] 0 0 = 0 ↔ ¬ luckZero 0 0 < PIT_SPAWN_PROBABILITY)) :=
  ⟨rfl, claim_C5_generator luckZero [] 0 0 rfl⟩

/-! ## Claim theorems: persistence -/

/-- C2 counterexample: a present but malformed blob does NOT behave as an
absent blob — `loadGame` has no `try`/`catch`, so the `JSON.parse` /
field-access exception propagates (`Except.error`) instead of starting a
fresh session the way an absent blob does. -/
theorem claim_C2_counterexample :
    loadGame LoadBlob.malformed initState = Except.error () ∧
    loadGame LoadBlob.absent initState = Except.ok (initState, false) ∧
    loadGame LoadBlob.malformed initState ≠ loadGame LoadBlob.absent initState := by
  refine ⟨rfl, rfl, ?_⟩
  simp [loadGame]

/-- C2 (amended): an absent blob starts fresh (state untouched, `false`
returned) without error; a well-shaped blob fully overwrites the state;
but a malformed blob (parse failure or shape mismatch) raises an error
that propagates out of `loadGame`, so the session does not start fresh. -/
theorem claim_C2_loadBehavior (st : GameState) (sv : SavedState) :
    loadGame LoadBlob.absent st = Except.ok (st, false) ∧
    loadGame LoadBlob.malformed st = Except.error () ∧
    loadGame (LoadBlob.wellFormed sv) st = Except.ok (applySaved sv, true) :=
  ⟨rfl, rfl, rfl⟩

theorem storeFind_some_mem : ∀ (cs : Store) (k : Coord) (v : ℤ),
    storeFind cs k = some v → (k, v) ∈ cs
  | [], _, _, h => by simp [storeFind] at h
  | (k', w) :: tl, k, v, h => by
      by_cases hk : k' = k
      · subst hk
        simp only [storeFind, if_true, eq_self_iff_true, Option.some.injEq] at h
        simp [h]
      · simp only [storeFind, if_neg hk] at h
        exact List.mem_cons_of_mem _ (storeFind_some_mem tl k v h)

theorem stepEff_keysNodup (luck : ℤ → ℤ → ℚ) (st : GameState) (a : Action)
    (h : (st.cellState.map Prod.fst).Nodup) :
    (((stepEff luck st a).1.cellState).map Prod.fst).Nodup := by
  cases a with
  | move dLat dLng => exact h
  | setPos lat lng => exact h
  | click i j =>
      rcases rectClick_cases luck st i j with hcl | ⟨v, inv, hcl⟩
      · simpa [stepEff, hcl] using h
      · simpa [stepEff, hcl] using mapSet_keys_nodup h (i, j) v

theorem runTrace_keysNodup (luck : ℤ → ℤ → ℚ) :
    ∀ (acts : List Action) (st : GameState),
      (st.cellState.map Prod.fst).Nodup →
      (((runTrace luck st acts).1.cellState).map Prod.fst).Nodup
  | [], _, h => h
  | a :: rest, st, h =>
      runTrace_keysNodup luck rest (stepEff luck st a).1 (stepEff_keysNodup luck st a h)

theorem applySaved_saveGame (st : GameState)
    (h : (st.cellState.map Prod.fst).Nodup) :
    applySaved (saveGame st) = st := by
  have hr := rebuild_foldl st.cellState [] h (fun kv _ => rfl)
  simp only [List.nil_append] at hr
  cases st with
  | mk lat lng inv cs =>
      simp only [applySaved, saveGame] at *
      simp [hr]

/-- C6: for every reachable game state, serializing position, inventory
and Cell Store, then restoring the blob over any in-memory state (the
restore clears the map first), yields exactly the pre-serialize state. -/
theorem claim_C6_roundTrip (luck : ℤ → ℤ → ℚ) (acts : List Action)
    (other : GameState) :
    loadGame (LoadBlob.wellFormed (saveGame (runTrace luck initState acts).1)) other =
      Except.ok ((runTrace luck initState acts).1, true) := by
  have h := runTrace_keysNodup luck acts initState (by simp [initState])
  simp [loadGame, applySaved_saveGame _ h]

/-! ## Claim theorems: space bound and mandatory side effects -/

theorem stepEff_length (luck : ℤ → ℤ → ℚ) (st : GameState) (a : Action) :
    (stepEff luck st a).1.cellState.length ≤
      st.cellState.length + ((stepEff luck st a).2.countP isStoreWrite) := by
  cases a with
  | move dLat dLng => simp [stepEff, movePlayer]
  | setPos lat lng => simp [stepEff, setPlayerPosition]
  | click i j =>
      rcases rectClick_cases luck st i j with hcl | ⟨v, inv, hcl⟩
      · simp [stepEff, hcl]
      · simp only [stepEff, hcl, List.countP_cons, List.countP_nil, isStoreWrite]
        simpa using mapSet_length_le st.cellState (i, j) v

theorem runTrace_length (luck : ℤ → ℤ → ℚ) :
    ∀ (acts : List Action) (st : GameState),
      (runTrace luck st acts).1.cellState.length ≤
        st.cellState.length + (runTrace luck st acts).2
  | [], st => by simp [runTrace]
  | a :: rest, st => by
      have h1 := stepEff_length luck st a
      have h2 := runTrace_length luck rest (stepEff luck st a).1
      simp only [runTrace]
      omega

/-- C7: starting from the initial state, after any sequence of events the
Cell Store holds at most as many entries as there were store-mutating
interactions, and its keys are pairwise distinct (so the bound counts
distinct entries).  Reads (`getCellValue`) are pure and appear in no
state-changing position, so they never create entries. -/
theorem claim_C7_spaceBound (luck : ℤ → ℤ → ℚ) (acts : List Action) :
    (runTrace luck initState acts).1.cellState.length ≤
      (runTrace luck initState acts).2 ∧
    (((runTrace luck initState acts).1.cellState).map Prod.fst).Nodup := by
  constructor
  · simpa [initState] using runTrace_length luck acts initState
  · exact runTrace_keysNodup luck acts initState (by simp [initState])

/-- C8: in the effect trace of every event handler — for every state and
every event, unconditionally — each Cell Store write is immediately
followed by a persistence write and then a viewport re-render. -/
theorem claim_C8_mutationEffects (luck : ℤ → ℤ → ℚ) (st : GameState) (a : Action) :
    writesFollowedB (stepEff luck st a).2 = true := by
  cases a with
  | move dLat dLng => rfl
  | setPos lat lng => rfl
  | click i j =>
      rcases rectClick_cases luck st i j with hcl | ⟨v, inv, hcl⟩
      · simp [stepEff, hcl, writesFollowedB]
      · simp [stepEff, hcl, writesFollowedB]

/-! ## Claim theorems: value discipline -/

theorem getCellValue_zero_or_pow2 (luck : ℤ → ℤ → ℚ) (cs : Store) (i j : ℤ)
    (h : ∀ kv ∈ cs, kv.2 = 0 ∨ pow2 kv.2) :
    getCellValue luck cs i j = 0 ∨ pow2 (getCellValue luck cs i j) := by
  unfold getCellValue
  cases hf : storeFind cs (i, j) with
  | none =>
      dsimp only
      split
      · exact Or.inr ⟨0, rfl⟩
      · exact Or.inl rfl
  | some v => exact h (⟨i, j⟩, v) (storeFind_some_mem cs (i, j) v hf)

theorem stepEff_goodVals (luck : ℤ → ℤ → ℚ) (st : GameState) (a : Action)
    (h : goodVals st) : goodVals (stepEff luck st a).1 := by
  obtain ⟨hcs, hinv⟩ := h
  cases a with
  | move dLat dLng => exact ⟨hcs, hinv⟩
  | setPos lat lng => exact ⟨hcs, hinv⟩
  | click i j =>
      have hval := getCellValue_zero_or_pow2 luck st.cellState i j hcs
      show goodVals (rectClick luck st i j).1
      rcases rectClick_branches luck st i j with hcl | ⟨hn, hpos, hcl⟩ |
        ⟨w, hsw, hw, hcl⟩ | ⟨w, hsw, hcl⟩ <;> rw [hcl]
      · exact ⟨hcs, hinv⟩
      · refine ⟨?_, ?_⟩
        · intro kv hkv
          rcases mem_mapSet _ _ _ _ hkv with rfl | hmem
          · exact Or.inl rfl
          · exact hcs kv hmem
        · intro w' hw'
          simp only [Option.some.injEq] at hw'
          rcases hval with h0 | hp
          · rw [h0] at hpos
            exact absurd hpos (lt_irrefl 0)
          · exact hw' ▸ hp
      · refine ⟨?_, ?_⟩
        · intro kv hkv
          rcases mem_mapSet _ _ _ _ hkv with rfl | hmem
          · rcases hinv w hsw with ⟨n, hn⟩
            refine Or.inr ⟨n + 1, ?_⟩
            show getCellValue luck st.cellState i j * 2 = 2 ^ (n + 1)
            rw [← hw, hn]
            ring
          · exact hcs kv hmem
        · intro w' hw'
          exact Option.noConfusion hw'
      · refine ⟨?_, ?_⟩
        · intro kv hkv
          rcases mem_mapSet _ _ _ _ hkv with rfl | hmem
          · exact Or.inr (hinv w hsw)
          · exact hcs kv hmem
        · intro w' hw'
          exact Option.noConfusion hw'

theorem runTrace_goodVals (luck : ℤ → ℤ → ℚ) :
    ∀ (acts : List Action) (st : GameState),
      goodVals st → goodVals (runTrace luck st acts).1
  | [], _, h => h
  | a :: rest, st, h =>
      runTrace_goodVals luck rest (stepEff luck st a).1 (stepEff_goodVals luck st a h)

/-- C10: in every state reachable from the initial state, every stored
cell value is `0` or a power of two, and a held inventory token is a
positive power of two (in particular never `0`). -/
theorem claim_C10_powerOfTwo (luck : ℤ → ℤ → ℚ) (acts : List Action) :
    (∀ kv ∈ (runTrace luck initState acts).1.cellState, kv.2 = 0 ∨ pow2 kv.2) ∧
    (∀ w, (runTrace luck initState acts).1.inventory = some w → 0 < w ∧ pow2 w) := by
  have h : goodVals (runTrace luck initState acts).1 :=
    runTrace_goodVals luck acts initState ⟨by simp [initState], by simp [initState]⟩
  refine ⟨h.1, fun w hw => ⟨?_, h.2 w hw⟩⟩
  rcases h.2 w hw with ⟨n, rfl⟩
  positivity

/-! ## Claim theorems: movement facade -/

theorem toggle_from_button {s : MoveSys} (hc : s.current = Controller.button) :
    toggle true s =
      { panelDisplay := "none", geoWatchId := some s.nextWatchId,
        current := Controller.geo, nextWatchId := s.nextWatchId + 1,
        activeWatches := s.activeWatches ++ [s.nextWatchId] } := by
  rw [toggle, if_neg]
  · rfl
  · rw [hc]
    intro h
    exact Controller.noConfusion h

theorem toggle_from_geo {s : MoveSys} {b : Bool} {id : ℕ}
    (hc : s.current = Controller.geo) (hid : s.geoWatchId = some id) :
    toggle b s =
      { panelDisplay := "flex", geoWatchId := none,
        current := Controller.button, nextWatchId := s.nextWatchId,
        activeWatches := s.activeWatches.erase id } := by
  rw [toggle, if_pos hc]
  simp [buttonStart, geoStop, hid]

/-- C3 counterexample: toggling to geolocation when the browser does not
support it (`navigator.geolocation` missing, so `geoMovement.start()`
alerts and returns without registering a watch) leaves `currentMovement =
geoMovement` with `geoWatchId = null` and the button panel hidden —
NEITHER source reports `isActive()`, refuting exactly-one-active after an
unsupported geolocation start. -/
theorem claim_C3_counterexample :
    buttonIsActive (toggle false initMoveSys) = false ∧
    geoIsActive (toggle false initMoveSys) = false ∧
    ¬ exactlyOneActive (toggle false initMoveSys) := by
  decide

/-- C3 (amended): after initialization exactly one movement source is
active, and — provided geolocation is supported, so `watchPosition`
registers a subscription and returns an id — every toggle preserves the
subsystem's consistency (subscription list exactly matching the held
watch id, i.e. no duplicated or leaked subscriptions, and the current
controller being the active one), consistency implies exactly one source
is active, toggling twice restores the original observables (current
controller, the two `isActive()` readings, and the live-subscription
count), and there is never more than one live subscription.  When
geolocation is unsupported, a toggle onto the geolocation source instead
leaves both sources inactive (see the counterexample). -/
theorem claim_C3_facadeExclusivity :
    (goodMove initMoveSys ∧ exactlyOneActive initMoveSys) ∧
    (∀ s, goodMove s → goodMove (toggle true s)) ∧
    (∀ s, goodMove s → exactlyOneActive s) ∧
    (∀ s, goodMove s → movObs (toggle true (toggle true s)) = movObs s) ∧
    (∀ s, goodMove s → s.activeWatches.length ≤ 1) := by
  have hpres : ∀ s, goodMove s → goodMove (toggle true s) := by
    intro s hs
    obtain ⟨hwl, hbd, hcur⟩ := hs
    rcases hcur with ⟨hc, hg, hb⟩ | ⟨hc, hg, hb⟩
    · rw [toggle_from_button hc]
      rw [hg] at hwl
      simp only [watchList] at hwl
      refine ⟨?_, ?_, Or.inr ⟨rfl, by simp, by simp [buttonIsActive]⟩⟩
      · simp [watchList, hwl]
      · simp [hwl]
    · obtain ⟨id, hid⟩ := Option.ne_none_iff_exists'.mp hg
      rw [toggle_from_geo hc hid]
      rw [hid] at hwl
      simp only [watchList] at hwl
      refine ⟨?_, ?_, Or.inl ⟨rfl, rfl, by simp [buttonIsActive]⟩⟩
      · simp [watchList, hwl]
      · simp [hwl]
  have hone : ∀ s, goodMove s → exactlyOneActive s := by
    intro s hs
    obtain ⟨hwl, hbd, hcur⟩ := hs
    rcases hcur with ⟨hc, hg, hb⟩ | ⟨hc, hg, hb⟩
    · exact Or.inl ⟨hb, by simp [geoIsActive, hg]⟩
    · refine Or.inr ⟨hb, ?_⟩
      obtain ⟨id, hid⟩ := Option.ne_none_iff_exists'.mp hg
      simp [geoIsActive, hid]
  have hdup : ∀ s, goodMove s → movObs (toggle true (toggle true s)) = movObs s := by
    intro s hs
    obtain ⟨hwl, hbd, hcur⟩ := hs
    rcases hcur with ⟨hc, hg, hb⟩ | ⟨hc, hg, hb⟩
    · rw [toggle_from_button hc, toggle_from_geo rfl rfl]
      rw [hg] at hwl
      simp only [watchList] at hwl
      simp only [buttonIsActive, bne_iff_ne, ne_eq] at hb
      simp [movObs, buttonIsActive, geoIsActive, hwl, hc, hg, hb]
    · obtain ⟨id, hid⟩ := Option.ne_none_iff_exists'.mp hg
      rw [toggle_from_geo hc hid, toggle_from_button rfl]
      rw [hid] at hwl
      simp only [watchList] at hwl
      simp only [buttonIsActive, bne_eq_false_iff_eq] at hb
      simp [movObs, buttonIsActive, geoIsActive, hwl, hc, hid, hb]
  have hlen : ∀ s, goodMove s → s.activeWatches.length ≤ 1 := by
    intro s hs
    obtain ⟨hwl, _, _⟩ := hs
    rw [hwl]
    cases s.geoWatchId <;> simp [watchList]
  exact ⟨⟨by decide, by decide⟩, hpres, hone, hdup, hlen⟩

/-- Witness for C3 at the concrete initial movement state. -/
theorem claim_C3_witness :
    goodMove initMoveSys ∧
    goodMove (toggle true initMoveSys) ∧
    exactlyOneActive initMoveSys ∧
    movObs (toggle true (toggle true initMoveSys)) = movObs initMoveSys ∧
    initMoveSys.activeWatches.length ≤ 1 :=
  ⟨by decide,
    claim_C3_facadeExclusivity.2.1 initMoveSys (by decide),
    claim_C3_facadeExclusivity.2.2.1 initMoveSys (by decide),
    claim_C3_facadeExclusivity.2.2.2.1 initMoveSys (by decide),
    claim_C3_facadeExclusivity.2.2.2.2 initMoveSys (by decide)⟩

end WorldOfBits
